import Mathlib

/-!
Verification development for the Estonian population-statistics dashboard
(`src/streamlit_app.py`).  The definitions below are a shallow embedding of
the script's data-wrangling logic: the fixed query payload, the sample-data
fallback, the CSV parsing step of `import_data`, the geometry loader
`import_geojson`, the county-name normalization and join of `plot`, and the
pivot/aggregation of `main`.  The theorems settle the specification's
testable properties against these definitions.
-/

set_option maxHeartbeats 1000000
set_option maxRecDepth 100000

/- ### Constants from the script -/

/-- The three candidate GeoJSON URLs tried in order by `import_geojson`. -/
def GEOJSON_URLS : List String :=
  ["https://raw.githubusercontent.com/okestonia/Estonian-Open-Geodata/master/geojson/maakond.geojson",
   "https://raw.githubusercontent.com/buildig/EHAK/master/geojson/maakond.geojson",
   "https://raw.githubusercontent.com/buildig/Estonian-Open-Geodata/master/geojson/maakond.geojson"]

/-- The year values selected by the fixed JSON query payload (`JSON_PAYLOAD_STR`). -/
def PAYLOAD_YEARS : List String :=
  ["2014", "2015", "2016", "2017", "2018", "2019", "2020", "2021", "2022", "2023"]

/-- The county-code values selected by the fixed JSON query payload
(`JSON_PAYLOAD_STR`, code "Maakond"). -/
def PAYLOAD_COUNTY_CODES : List String :=
  ["39", "44", "49", "51", "57", "59", "65", "67", "70", "74", "78", "82", "84", "86"]

/-- The sex-code values selected by the fixed JSON query payload. -/
def PAYLOAD_SEX_CODES : List String := ["2", "3"]

/-- The canonical county-name table used by `create_sample_data` and by the
fallback branch of `import_geojson` (both list the same 15 names). -/
def SAMPLE_COUNTIES : List String :=
  ["Harju maakond", "Hiiu maakond", "Ida-Viru maakond", "Jõgeva maakond",
   "Järva maakond", "Lääne maakond", "Lääne-Viru maakond", "Põlva maakond",
   "Pärnu maakond", "Rapla maakond", "Saare maakond", "Tartu maakond",
   "Valga maakond", "Viljandi maakond", "Võru maakond"]

/-- The gender labels used by `create_sample_data`. -/
def SAMPLE_GENDERS : List String := ["Mehed", "Naised"]

/-- The years covered by `create_sample_data` (`range(2014, 2024)`). -/
def SAMPLE_YEARS : List Int :=
  [2014, 2015, 2016, 2017, 2018, 2019, 2020, 2021, 2022, 2023]

/- ### Python string primitives used by the script -/

/-- Python `str.lower()` on one character, for the alphabet appearing in the
script (ASCII plus the Estonian letters of the county names). -/
def pyLowerChar (c : Char) : Char :=
  if 'A' ≤ c ∧ c ≤ 'Z' then Char.ofNat (c.toNat + 32)
  else if c = 'Õ' then 'õ'
  else if c = 'Ä' then 'ä'
  else if c = 'Ö' then 'ö'
  else if c = 'Ü' then 'ü'
  else if c = 'Š' then 'š'
  else if c = 'Ž' then 'ž'
  else c

/-- Python `str.upper()` on one character (same alphabet). -/
def pyUpperChar (c : Char) : Char :=
  if 'a' ≤ c ∧ c ≤ 'z' then Char.ofNat (c.toNat - 32)
  else if c = 'õ' then 'Õ'
  else if c = 'ä' then 'Ä'
  else if c = 'ö' then 'Ö'
  else if c = 'ü' then 'Ü'
  else if c = 'š' then 'Š'
  else if c = 'ž' then 'Ž'
  else c

/-- Python `str.lower()` on a character list. -/
def pyLower (s : List Char) : List Char := s.map pyLowerChar

/-- Python `str.upper()` on a character list. -/
def pyUpper (s : List Char) : List Char := s.map pyUpperChar

/-- Python `county.replace(' maakond', '')`: remove every (leftmost,
non-overlapping) occurrence of the exact, case-sensitive substring
`" maakond"`.  The match is spelled out character by character so the
function is structurally recursive and evaluates in the kernel. -/
def stripMaakondAll : List Char → List Char
  | ' ' :: 'm' :: 'a' :: 'a' :: 'k' :: 'o' :: 'n' :: 'd' :: rest =>
      stripMaakondAll rest
  | c :: rest => c :: stripMaakondAll rest
  | [] => []

/-- The name-cleaning step of `plot`:
`county.replace(' maakond', '').lower()` — note that the (case-sensitive)
substring removal happens before the case fold. -/
def normalizeCounty (s : String) : String :=
  String.mk (pyLower (stripMaakondAll s.toList))

/-- Python `str.lower()` on a `String`. -/
def pyLowerStr (s : String) : String := String.mk (pyLower s.toList)

/-- The bare base name of a geometry county name: the name with its final
`" maakond"` (8 characters) removed. -/
def baseOf (s : String) : String := String.mk (s.toList.take (s.toList.length - 8))

/- ### GeoLoader (`import_geojson`) -/

/-- A loaded counties table: its column names, its county-name column, and
its geometry column (`none` models a missing/`None` geometry). -/
structure Gdf where
  cols : List String
  names : List String
  geoms : List (Option Unit)
deriving DecidableEq

/-- The fallback table built by `import_geojson` when every URL fails: the
15 county names under column `MAAKOND`, with `None` geometry for each. -/
def fallbackGdf : Gdf :=
  { cols := ["MAAKOND", "geometry"],
    names := SAMPLE_COUNTIES,
    geoms := SAMPLE_COUNTIES.map (fun _ => none) }

/-- The `for url in GEOJSON_URLS` loop of `import_geojson`: return the first
successfully loaded table, `none` if every source fails. -/
def firstSuccess (fetch : String → Option Gdf) : List String → Option Gdf
  | [] => none
  | u :: rest =>
    match fetch u with
    | some g => some g
    | none => firstSuccess fetch rest

/-- The loader `import_geojson`: try the URLs in order; if all fail, return the
name-only fallback table. -/
def importGeojson (fetch : String → Option Gdf) : Gdf :=
  match firstSuccess fetch GEOJSON_URLS with
  | some g => g
  | none => fallbackGdf

/-- What `plot` draws. -/
inductive RenderMode where
  | choropleth : RenderMode
  | barChart : RenderMode
deriving DecidableEq

/-- The branch condition of `plot`: `if None not in gdf.geometry.values`
draw the choropleth map, otherwise fall back to a bar chart. -/
def renderMode (g : Gdf) : RenderMode :=
  if g.geoms.all (fun x => x.isSome) then RenderMode.choropleth
  else RenderMode.barChart

/-- The candidate county-name fields scanned by `plot`. -/
def COUNTY_FIELD_CANDIDATES : List String :=
  ["MAAKOND", "MNIMI", "name", "ONIMI", "maakond"]

/-- The county-field detection of `plot`: the first candidate field present
among the table's columns. -/
def findCountyField (cols : List String) : Option String :=
  COUNTY_FIELD_CANDIDATES.find? (fun f => cols.contains f)

/- ### Observation rows and the aggregation of `plot` / `main` -/

/-- One observation row of the statistics table:
(year, county, sex category, natural-growth value). -/
structure Obs where
  aasta : Int
  maakond : String
  sugu : String
  iive : Int
deriving DecidableEq

/-- The year filter `get_data_for_year`: `df[df.Aasta == year]`. -/
def getDataForYear (df : List Obs) (year : Int) : List Obs :=
  df.filter (fun r => r.aasta == year)

/-- The distinct county keys of a table (the keys of `groupby('Maakond')`). -/
def countyKeys (rows : List Obs) : List String :=
  (rows.map (fun r => r.maakond)).dedup

/-- The distinct sex categories of a table (the columns of the pivot). -/
def sexKeys (rows : List Obs) : List String :=
  (rows.map (fun r => r.sugu)).dedup

/-- Sum of the `'Loomulik iive'` column. -/
def sumIive (rows : List Obs) : Int := (rows.map (fun r => r.iive)).sum

/-- One county's total over all its rows
(`groupby('Maakond')['Loomulik iive'].sum()` at that key). -/
def countyTotal (rows : List Obs) (c : String) : Int :=
  sumIive (rows.filter (fun r => r.maakond == c))

/-- One county's per-sex-category sum (one cell of the pivot table). -/
def perSexSum (rows : List Obs) (c s : String) : Int :=
  sumIive (rows.filter (fun r => r.maakond == c && r.sugu == s))

/-- The aggregation `data_for_year.groupby('Maakond')['Loomulik iive'].sum().reset_index()`:
one (county, total) pair per distinct county. -/
def groupSumByCounty (rows : List Obs) : List (String × Int) :=
  (countyKeys rows).map (fun c => (c, countyTotal rows c))

/- ### The name bridge and merge of `plot` -/

/-- Lookup in the `county_mapping` dict.  The dict is modelled as an
association list whose most recent insertion sits at the head, so
first-match lookup realizes Python's overwrite-on-insert semantics. -/
def dictGet (d : List (String × String)) (k : String) : Option String :=
  (d.find? (fun e => e.1 == k)).map (fun e => e.2)

/-- The `county_mapping` dict of `plot`: first every data-side county is
inserted under its cleaned name; then every geometry-side name whose
cleaned form is already a key is inserted (under its raw name) with the
value found for the cleaned form. -/
def countyMapping (dataCounties geoNames : List String) : List (String × String) :=
  let d1 := dataCounties.foldl (fun d c => (normalizeCounty c, c) :: d) []
  geoNames.foldl (fun d n =>
    match dictGet d (normalizeCounty n) with
    | some v => (n, v) :: d
    | none => d) d1

/-- One left row's contribution to a `how='left'` merge: all its right
matches, or a single missing-value row when it has none (a `none` key
matches nothing, as a `NaN` key matches no string key). -/
def mergeRow (vals : List (String × Int)) (g : Option String) :
    List (Option String × Option Int) :=
  let ms := vals.filter (fun v => g == some v.1)
  if ms.isEmpty then [(g, none)] else ms.map (fun v => (g, some v.2))

/-- The left merge of `plot`:
`gdf.merge(county_data, left_on='mapped_county', right_on='Maakond',
how='left')`. -/
def leftMerge (geos : List (Option String)) (vals : List (String × Int)) :
    List (Option String × Option Int) :=
  geos.flatMap (mergeRow vals)

/-- The whole join pipeline of `plot` for a selected year: filter the year,
aggregate by county, build the name bridge, compute `mapped_county` for
each geometry name, and left-merge the aggregated values onto the geometry
rows.  Each output row is (geometry name, mapped county, joined value). -/
def plotMerged (geoNames : List String) (df : List Obs) (year : Int) :
    List (String × Option String × Option Int) :=
  let dfy := getDataForYear df year
  let cd := groupSumByCounty dfy
  let mapping := countyMapping (cd.map (fun v => v.1)) geoNames
  geoNames.flatMap (fun n =>
    let m := dictGet mapping (normalizeCounty n)
    let ms := cd.filter (fun v => m == some v.1)
    if ms.isEmpty then [(n, m, (none : Option Int))]
    else ms.map (fun v => (n, m, some v.2)))

/- ### The pivot table of `main` -/

/-- One row of the pivoted display table: county, its per-sex-category
sums, and the `'Kokku'` total merged in from the county aggregation. -/
structure PivotRow where
  maakond : String
  perSex : List Int
  kokku : Int
deriving DecidableEq

/-- The pivot table before sorting: one row per distinct county. -/
def pivotTable (rows : List Obs) : List PivotRow :=
  (countyKeys rows).map (fun c =>
    { maakond := c,
      perSex := (sexKeys rows).map (fun s => perSexSum rows c s),
      kokku := countyTotal rows c })

/-- Descending order on the `'Kokku'` column
(`sort_values('Kokku', ascending=False)`). -/
def kokkuGE (a b : PivotRow) : Prop := b.kokku ≤ a.kokku

instance : DecidableRel kokkuGE :=
  fun a b => inferInstanceAs (Decidable (b.kokku ≤ a.kokku))

instance : IsTotal PivotRow kokkuGE := ⟨fun a b => le_total b.kokku a.kokku⟩

instance : IsTrans PivotRow kokkuGE := ⟨fun _ _ _ hab hbc => le_trans hbc hab⟩

/-- The displayed pivot table: sorted descending by `'Kokku'`. -/
def pivotSorted (rows : List Obs) : List PivotRow :=
  List.insertionSort kokkuGE (pivotTable rows)

/- ### CSV parsing step of `import_data` -/

/-- Split a character list at every occurrence of the separator character
(the field/line splitting underlying `pd.read_csv(..., sep=...)`). -/
def splitOnChar (sep : Char) : List Char → List (List Char)
  | [] => [[]]
  | c :: rest =>
    if c = sep then [] :: splitOnChar sep rest
    else
      match splitOnChar sep rest with
      | [] => [[c]]
      | f :: fs => (c :: f) :: fs

/-- Join character lists with a separator character (the inverse used to
encode a table as a delimited payload). -/
def joinSep (sep : Char) : List (List Char) → List Char
  | [] => []
  | [x] => x
  | x :: y :: t => x ++ sep :: joinSep sep (y :: t)

/-- One `pd.read_csv(StringIO(text), sep=...)` attempt: split the text into
non-blank lines, take the first as the header, split every line at the
separator, and fail (as pandas does with a parse error) when a data row has
more fields than the header; fail on an empty payload. -/
def readCsv (sep : Char) (text : List Char) : Option (List (List (List Char))) :=
  match (splitOnChar '\n' text).filter (fun l => !l.isEmpty) with
  | [] => none
  | h :: rest =>
    if ∀ r ∈ rest.map (splitOnChar sep), r.length ≤ (splitOnChar sep h).length then
      some (splitOnChar sep h :: rest.map (splitOnChar sep))
    else none

/-- The delimiter fallback of `import_data`: try `sep=';'` first, and only
if that attempt raises, try `sep=','`. -/
def parseCsvStep (text : List Char) : Option (List (List (List Char))) :=
  match readCsv ';' text with
  | some t => some t
  | none => readCsv ',' text

/-- Encode a table (header and rows of fields) as a `sep`-delimited CSV
payload, one line per row. -/
def encodeCsv (sep : Char) (tbl : List (List (List Char))) : List Char :=
  joinSep '\n' (tbl.map (joinSep sep))

/- ### `import_data` and its sample-data fallback -/

/-- One dataframe cell: a raw string, a parsed number, or pandas' `NaN`
(the result of `pd.to_numeric(..., errors='coerce')` on a non-number). -/
inductive Cell where
  | str : String → Cell
  | int : Int → Cell
  | nan : Cell
deriving DecidableEq

/-- A dataframe: column names plus rows of cells aligned by position. -/
structure Table where
  header : List String
  rows : List (List Cell)
deriving DecidableEq

/-- The fallback `create_sample_data`, parameterized by the (randomly drawn in the
script) value of each (year, county, gender) combination. -/
def createSampleData (v : Int → String → String → Int) : Table :=
  { header := ["Aasta", "Maakond", "Sugu", "Loomulik iive"],
    rows := SAMPLE_YEARS.flatMap (fun y =>
      SAMPLE_COUNTIES.flatMap (fun c =>
        SAMPLE_GENDERS.map (fun g =>
          [Cell.int y, Cell.str c, Cell.str g, Cell.int (v y c g)]))) }

/-- One heuristic rename of `import_data`: if the target column is missing,
rename the first column whose lower-cased name is among the candidates. -/
def renameIfMissing (target : String) (cands : List String)
    (header : List String) : List String :=
  if target ∈ header then header
  else
    match header.find? (fun c => cands.contains (pyLowerStr c)) with
    | some c => header.map (fun x => if x = c then target else x)
    | none => header

/-- The value-column rename of `import_data` (applied unconditionally):
rename the first column whose lower-cased name is among
`['value', 'loomulik iive', 'natural increase']` to `'Loomulik iive'`. -/
def renameValueCol (header : List String) : List String :=
  match header.find? (fun c =>
      (["value", "loomulik iive", "natural increase"]).contains (pyLowerStr c)) with
  | some c => header.map (fun x => if x = c then "Loomulik iive" else x)
  | none => header

/-- The numeric value of a decimal digit character. -/
def digitVal (c : Char) : Option Nat :=
  if '0' ≤ c ∧ c ≤ '9' then some (c.toNat - 48) else none

/-- Parse a non-empty all-digit character list as a natural number. -/
def parseNatChars (cs : List Char) : Option Nat :=
  if cs.isEmpty then none
  else
    cs.foldl (fun acc c =>
      match acc, digitVal c with
      | some a, some d => some (10 * a + d)
      | _, _ => none) (some 0)

/-- Parse an optionally `-`-signed integer literal. -/
def parseIntChars : List Char → Option Int
  | '-' :: rest => (parseNatChars rest).map (fun n => -(n : Int))
  | cs => (parseNatChars cs).map (fun n => (n : Int))

/-- Pandas `pd.to_numeric(..., errors='coerce')` on one cell. -/
def toNumericCell : Cell → Cell
  | Cell.str s =>
    match parseIntChars s.toList with
    | some n => Cell.int n
    | none => Cell.nan
  | Cell.int n => Cell.int n
  | Cell.nan => Cell.nan

/-- Apply the numeric coercion to every column whose name is in `targets`
(`df['Aasta'] = pd.to_numeric(df['Aasta'], ...)` and likewise for
`'Loomulik iive'`). -/
def toNumericCols (targets : List String) (t : Table) : Table :=
  { header := t.header,
    rows := t.rows.map (fun r =>
      (t.header.zip r).map (fun hc =>
        if hc.1 ∈ targets then toNumericCell hc.2 else hc.2)) }

/-- The header heuristics of `import_data` in order: the `'Aasta'`,
`'Maakond'` and `'Sugu'` renames (each only when the target is missing),
then the unconditional value-column rename. -/
def processedHeader (header0 : List String) : List String :=
  renameValueCol
    (renameIfMissing "Sugu" ["sugu", "gender", "sex"]
      (renameIfMissing "Maakond" ["maakond", "county", "region"]
        (renameIfMissing "Aasta" ["aasta", "year", "time"] header0)))

/-- The post-parse processing of `import_data`: wrap the parsed CSV as a
string-cell table, apply the rename heuristics, fall back to sample data
when a required column is still missing, and otherwise coerce the numeric
columns. -/
def processParsed (p : List (List (List Char)))
    (v : Int → String → String → Int) : Table :=
  match p with
  | [] => createSampleData v
  | h :: rs =>
    if "Aasta" ∈ processedHeader (h.map String.mk) ∧
        "Maakond" ∈ processedHeader (h.map String.mk) ∧
        "Loomulik iive" ∈ processedHeader (h.map String.mk) then
      toNumericCols ["Aasta", "Loomulik iive"]
        { header := processedHeader (h.map String.mk),
          rows := rs.map (fun r => r.map (fun f => Cell.str (String.mk f))) }
    else createSampleData v

/-- The fetcher `import_data`.  The HTTP interaction is abstracted as its observable
outcome: `none` models a raised request exception, `some (status, body)` a
response.  Every failure path returns the sample-data table. -/
def importData (resp : Option (Nat × List Char))
    (v : Int → String → String → Int) : Table :=
  match resp with
  | none => createSampleData v
  | some (status, body) =>
    if status = 200 then
      match parseCsvStep body with
      | none => createSampleData v
      | some p => processParsed p v
    else createSampleData v

/- ### Concrete scenario inputs -/

/-- The geometry record of the end-to-end scenario: one county named
`"Harju maakond"`. -/
def GEO_HARJU : List String := ["Harju maakond"]

/-- The scenario observation rows keyed by county code `"39"`:
`[(2023, "39", "2", 120), (2023, "39", "3", -30)]`. -/
def DF_CODE39 : List Obs :=
  [{ aasta := 2023, maakond := "39", sugu := "2", iive := 120 },
   { aasta := 2023, maakond := "39", sugu := "3", iive := -30 }]

/-- The same scenario rows keyed by county name instead of code. -/
def DF_NAME_HARJU : List Obs :=
  [{ aasta := 2023, maakond := "Harju maakond", sugu := "2", iive := 120 },
   { aasta := 2023, maakond := "Harju maakond", sugu := "3", iive := -30 }]

/-- A two-column, one-data-row table used to compare the comma and
semicolon encodings. -/
def CSV_TABLE0 : List (List (List Char)) :=
  [["Aasta".toList, "Maakond".toList], ["2023".toList, "39".toList]]


/- ### Shared helper lemmas -/

lemma firstSuccess_eq_none (fetch : String → Option Gdf) :
    ∀ l : List String, (∀ u ∈ l, fetch u = none) → firstSuccess fetch l = none := by
  intro l
  induction l with
  | nil => intro _; rfl
  | cons u rest ih =>
    intro h
    have hu : fetch u = none := h u (List.mem_cons_self u rest)
    have hr := ih (fun x hx => h x (List.mem_cons_of_mem u hx))
    simp [firstSuccess, hu, hr]

lemma createSampleData_rows_length (v : Int → String → String → Int) :
    (createSampleData v).rows.length = 300 := rfl

/- ### Claim theorems (first batch) -/

/-- C1 (counterexample): the name-cleaning step of `plot` strips the exact
substring `" maakond"` before lower-casing, so `"Harju Maakond"` (capital
`M`) keeps its suffix and does not normalize to the same key as
`"harju"`. -/
theorem normalize_mixed_case_suffix_differs :
    normalizeCounty "Harju Maakond" ≠ normalizeCounty "harju" ∧
    normalizeCounty "Harju Maakond" = "harju maakond" ∧
    normalizeCounty "harju" = "harju" := by decide

/-- C1 (amended): for every actual geographic county name (all of which
carry the exact lower-case `" maakond"` suffix), normalizing the name, its
bare base, and its upper-cased base yields the same canonical key — the
case fold applies to the part left after the (case-sensitive) suffix
strip. -/
theorem normalize_strips_lowercase_suffix :
    ∀ name ∈ SAMPLE_COUNTIES,
      normalizeCounty name = normalizeCounty (baseOf name) ∧
      normalizeCounty name = normalizeCounty (String.mk (pyUpper (baseOf name).toList)) ∧
      normalizeCounty name = pyLowerStr (baseOf name) := by decide

/-- C1 (witness): the amended statement applied at `"Harju maakond"`. -/
theorem normalize_strips_lowercase_suffix_witness :
    "Harju maakond" ∈ SAMPLE_COUNTIES ∧
    normalizeCounty "Harju maakond" = normalizeCounty (baseOf "Harju maakond") :=
  ⟨by decide, (normalize_strips_lowercase_suffix "Harju maakond" (by decide)).1⟩

/-- C2 (counterexample): the only county-code table the program has — the
fixed query payload's `"Maakond"` selection — contains 14 codes, not 15;
in particular code `"87"` (Võru maakond, which the 15-entry county-name
table does list) is absent, so no code→name lookup built by this program
covers all 15 county codes. -/
theorem payload_codes_not_fifteen :
    PAYLOAD_COUNTY_CODES.length = 14 ∧
    ¬ PAYLOAD_COUNTY_CODES.length = 15 ∧
    "87" ∉ PAYLOAD_COUNTY_CODES ∧
    "Võru maakond" ∈ SAMPLE_COUNTIES := by decide

/-- C2 (amended): the program builds no code→name lookup; its fixed query
enumerates 14 non-empty county codes, and the canonical county-name table
(used by the sample data and the geometry fallback) has 15 entries, all
non-empty. -/
theorem payload_and_county_table_shape :
    PAYLOAD_COUNTY_CODES.length = 14 ∧
    PAYLOAD_COUNTY_CODES.all (fun c => !c.isEmpty) = true ∧
    SAMPLE_COUNTIES.length = 15 ∧
    SAMPLE_COUNTIES.all (fun n => !n.isEmpty) = true := by decide

/-- C4 (counterexample): with the scenario's observation rows keyed by
county code `"39"`, the year filter and aggregation do yield 90 (under key
`"39"`), but the name bridge of `plot` cannot connect `"39"` to the
geometry name `"Harju maakond"`, so the joined value for Harju maakond is
missing, not 90. -/
theorem code_keyed_join_yields_missing :
    groupSumByCounty (getDataForYear DF_CODE39 2023) = [("39", 90)] ∧
    plotMerged GEO_HARJU DF_CODE39 2023 = [("Harju maakond", none, none)] ∧
    (plotMerged GEO_HARJU DF_CODE39 2023).all (fun p => p.2.2 != some 90) = true := by
  decide

/-- C4 (amended): the same end-to-end scenario with the observation rows
carrying the county name `"Harju maakond"` (as the CSV label column does)
instead of the bare code: filtering to 2023, aggregating across the two
sex categories and joining over the name bridge yields 90 for Harju
maakond. -/
theorem name_keyed_join_yields_ninety :
    groupSumByCounty (getDataForYear DF_NAME_HARJU 2023) = [("Harju maakond", 90)] ∧
    plotMerged GEO_HARJU DF_NAME_HARJU 2023 =
      [("Harju maakond", some "Harju maakond", some 90)] := by decide

/-- C6 (counterexample): on HTTP status 404 `import_data` returns the
300-row sample-data table, not an empty result. -/
theorem non200_returns_sample_rows :
    (importData (some (404, [])) (fun _ _ _ => 0)).rows.length = 300 ∧
    (importData (some (404, [])) (fun _ _ _ => 0)).rows.length ≠ 0 := by decide

/-- C6 (amended): for every response with a non-200 status code,
`import_data` reports the failure and returns the sample-data table — a
table of 300 generated observation rows, not an empty one. -/
theorem non200_returns_sample_data (status : Nat) (body : List Char)
    (v : Int → String → String → Int) (h : status ≠ 200) :
    importData (some (status, body)) v = createSampleData v ∧
    (importData (some (status, body)) v).rows.length = 300 := by
  have h0 : importData (some (status, body)) v = createSampleData v := by
    simp [importData, h]
  exact ⟨h0, by rw [h0]; exact createSampleData_rows_length v⟩

/-- C6 (witness): the amended statement applied at status 404. -/
theorem non200_returns_sample_data_witness :
    importData (some (404, [])) (fun _ _ _ => 0) = createSampleData (fun _ _ _ => 0) :=
  (non200_returns_sample_data 404 [] (fun _ _ _ => 0) (by decide)).1

/-- C8: when every GeoJSON source fails, `import_geojson` returns the
name-only fallback table covering all 15 county names with no geometry,
and `plot` then degrades to a bar chart instead of a map. -/
theorem import_geojson_all_fail_fallback_bar (fetch : String → Option Gdf)
    (h : ∀ u ∈ GEOJSON_URLS, fetch u = none) :
    importGeojson fetch = fallbackGdf ∧
    fallbackGdf.names = SAMPLE_COUNTIES ∧
    fallbackGdf.names.length = 15 ∧
    fallbackGdf.geoms.all (fun g => g.isNone) = true ∧
    renderMode (importGeojson fetch) = RenderMode.barChart := by
  have h0 : importGeojson fetch = fallbackGdf := by
    unfold importGeojson
    rw [firstSuccess_eq_none fetch GEOJSON_URLS h]
  refine ⟨h0, rfl, by decide, by decide, ?_⟩
  rw [h0]; decide

/-- C8 (witness): the theorem applied to a fetcher for which every URL
fails. -/
theorem import_geojson_all_fail_fallback_bar_witness :
    importGeojson (fun _ => none) = fallbackGdf ∧
    renderMode (importGeojson (fun _ => none)) = RenderMode.barChart := by
  have H := import_geojson_all_fail_fallback_bar (fun _ => none) (fun u _ => rfl)
  exact ⟨H.1, H.2.2.2.2⟩

/-- C10: the `'MAAKOND'` field of the fallback geometry table is the first
entry of the candidate field list scanned by `plot`, so on the fallback
path the county-field detection succeeds (the "could not identify county
name field" branch is not taken). -/
theorem fallback_county_field_detected :
    "MAAKOND" ∈ COUNTY_FIELD_CANDIDATES ∧
    findCountyField fallbackGdf.cols = some "MAAKOND" := by decide

/- ### C3: the left join keeps every geometry row -/

lemma filter_key_singleton (g : Option String) :
    ∀ vals : List (String × Int), (vals.map Prod.fst).Nodup →
      vals.filter (fun v => g == some v.1) = [] ∨
      ∃ v ∈ vals, vals.filter (fun v => g == some v.1) = [v] := by
  intro vals
  induction vals with
  | nil => intro _; left; rfl
  | cons w ws ih =>
    intro h
    rw [List.map_cons, List.nodup_cons] at h
    obtain ⟨hw, hws⟩ := h
    by_cases hg : g = some w.1
    · right
      refine ⟨w, List.mem_cons_self w ws, ?_⟩
      have hfw : ws.filter (fun v => g == some v.1) = [] := by
        rw [List.filter_eq_nil_iff]
        intro v hv hbeq
        rw [beq_iff_eq] at hbeq
        apply hw
        have : w.1 = v.1 := by
          have := hg.symm.trans hbeq
          exact Option.some.inj this
        rw [this]
        exact List.mem_map_of_mem Prod.fst hv
      rw [List.filter_cons, if_pos (by rw [beq_iff_eq]; exact hg), hfw]
    · have hne : ¬ (g == some w.1) = true := by
        rw [beq_iff_eq]; exact hg
      rw [List.filter_cons, if_neg hne]
      rcases ih hws with hnil | ⟨v, hv, hfil⟩
      · left; exact hnil
      · right; exact ⟨v, List.mem_cons_of_mem w hv, hfil⟩

lemma mergeRow_length (vals : List (String × Int))
    (h : (vals.map Prod.fst).Nodup) (g : Option String) :
    (mergeRow vals g).length = 1 := by
  unfold mergeRow
  rcases filter_key_singleton g vals h with hnil | ⟨v, _, hfil⟩
  · simp [hnil]
  · simp [hfil]

lemma mergeRow_fst (vals : List (String × Int)) (g : Option String) :
    ∀ p ∈ mergeRow vals g, p.1 = g := by
  intro p hp
  unfold mergeRow at hp
  by_cases he : (vals.filter (fun v => g == some v.1)).isEmpty
  · rw [if_pos he] at hp
    rcases List.mem_cons.mp hp with hp1 | hp2
    · rw [hp1]
    · cases hp2
  · rw [if_neg he] at hp
    obtain ⟨v, _, hv⟩ := List.mem_map.mp hp
    rw [← hv]

lemma mergeRow_unmatched (vals : List (String × Int)) (g : Option String)
    (hm : ∀ v ∈ vals, g ≠ some v.1) :
    ∀ p ∈ mergeRow vals g, p.2 = none := by
  intro p hp
  unfold mergeRow at hp
  have hfil : vals.filter (fun v => g == some v.1) = [] := by
    rw [List.filter_eq_nil_iff]
    intro v hv hbeq
    rw [beq_iff_eq] at hbeq
    exact hm v hv hbeq
  rw [hfil] at hp
  simp at hp
  rw [hp]

lemma mergeRow_ne_nil (vals : List (String × Int)) (g : Option String) :
    mergeRow vals g ≠ [] := by
  unfold mergeRow
  by_cases he : (vals.filter (fun v => g == some v.1)).isEmpty
  · rw [if_pos he]; intro h; cases h
  · rw [if_neg he]
    intro h
    rw [List.map_eq_nil_iff] at h
    rw [h] at he
    exact he rfl

/-- C3: joining a geometry set of `N` county rows against an aggregated
value set (one value per county key, any subset of the counties) yields
exactly `N` output rows; every geometry row appears in the output, and a
row whose key matches no value carries the missing-value marker rather
than being dropped. -/
theorem leftMerge_keeps_all_geometries (geos : List (Option String))
    (vals : List (String × Int)) (h : (vals.map Prod.fst).Nodup) :
    (leftMerge geos vals).length = geos.length ∧
    (∀ g ∈ geos, ∃ w, (g, w) ∈ leftMerge geos vals) ∧
    (∀ p ∈ leftMerge geos vals, (∀ v ∈ vals, p.1 ≠ some v.1) → p.2 = none) := by
  refine ⟨?_, ?_, ?_⟩
  · induction geos with
    | nil => rfl
    | cons g gs ih =>
      unfold leftMerge at ih ⊢
      rw [List.flatMap_cons, List.length_append, ih, mergeRow_length vals h g,
        List.length_cons]
      omega
  · intro g hg
    obtain ⟨p, hp⟩ := List.exists_mem_of_ne_nil (mergeRow vals g) (mergeRow_ne_nil vals g)
    refine ⟨p.2, ?_⟩
    have h1 : (g, p.2) = p := by
      have := mergeRow_fst vals g p hp
      rw [← this]
    rw [h1]
    unfold leftMerge
    exact List.mem_flatMap.mpr ⟨g, hg, hp⟩
  · intro p hp hnm
    unfold leftMerge at hp
    obtain ⟨g, hg, hpg⟩ := List.mem_flatMap.mp hp
    have hfst := mergeRow_fst vals g p hpg
    apply mergeRow_unmatched vals g _ p hpg
    intro v hv
    rw [← hfst]
    exact hnm v hv

/-- C3 (witness): the theorem at a concrete three-row geometry set whose
values cover only one county. -/
theorem leftMerge_keeps_all_geometries_witness :
    ([("harju", (5 : Int))].map Prod.fst).Nodup ∧
    (leftMerge [some "harju", some "saare", none] [("harju", 5)]).length = 3 :=
  ⟨by decide,
   (leftMerge_keeps_all_geometries [some "harju", some "saare", none]
     [("harju", 5)] (by decide)).1⟩

/- ### C7: the pivot's total column and its sort -/

lemma sum_filter_split {α : Type} (p : α → Bool) (val : α → Int) (L : List α) :
    ((L.filter p).map val).sum + ((L.filter (fun a => !p a)).map val).sum
      = (L.map val).sum := by
  induction L with
  | nil => simp
  | cons a l ih =>
    cases hpa : p a
    · have h1 : List.filter p (a :: l) = List.filter p l := by
        simp [List.filter_cons, hpa]
      have h2 : List.filter (fun x => !p x) (a :: l)
          = a :: List.filter (fun x => !p x) l := by
        simp [List.filter_cons, hpa]
      rw [h1, h2, List.map_cons, List.sum_cons, List.map_cons, List.sum_cons, ← ih]
      ring
    · have h1 : List.filter p (a :: l) = a :: List.filter p l := by
        simp [List.filter_cons, hpa]
      have h2 : List.filter (fun x => !p x) (a :: l)
          = List.filter (fun x => !p x) l := by
        simp [List.filter_cons, hpa]
      rw [h1, h2, List.map_cons, List.sum_cons, List.map_cons, List.sum_cons, ← ih]
      ring

lemma filter_filter_of_imp {α : Type} (p q : α → Bool) (l : List α)
    (h : ∀ a, q a = true → p a = true) :
    (l.filter p).filter q = l.filter q := by
  induction l with
  | nil => rfl
  | cons a l ih =>
    cases hq : q a
    · cases hp : p a
      · rw [List.filter_cons, if_neg (by rw [hp]; exact Bool.false_ne_true),
          List.filter_cons, if_neg (by rw [hq]; exact Bool.false_ne_true), ih]
      · rw [List.filter_cons, if_pos hp, List.filter_cons,
          if_neg (by rw [hq]; exact Bool.false_ne_true),
          List.filter_cons, if_neg (by rw [hq]; exact Bool.false_ne_true), ih]
    · have hp := h a hq
      rw [List.filter_cons, if_pos hp, List.filter_cons, if_pos hq,
        List.filter_cons, if_pos hq, ih]

lemma sum_map_filter_partition {α β : Type} [BEq β] [LawfulBEq β]
    (key : α → β) (val : α → Int) :
    ∀ (K : List β) (L : List α), K.Nodup → (∀ a ∈ L, key a ∈ K) →
      (K.map (fun k => ((L.filter (fun a => key a == k)).map val).sum)).sum
        = (L.map val).sum := by
  intro K
  induction K with
  | nil =>
    intro L _ hcov
    cases L with
    | nil => rfl
    | cons a l => exact absurd (hcov a (List.mem_cons_self a l)) (List.not_mem_nil _)
  | cons k K ih =>
    intro L hnd hcov
    rw [List.nodup_cons] at hnd
    obtain ⟨hk, hK⟩ := hnd
    rw [List.map_cons, List.sum_cons]
    have hstep : ∀ k' ∈ K,
        ((L.filter (fun a => key a == k')).map val).sum
          = (((L.filter (fun a => !(key a == k))).filter
              (fun a => key a == k')).map val).sum := by
      intro k' hk'
      rw [filter_filter_of_imp (fun a => !(key a == k)) (fun a => key a == k') L]
      intro a ha
      rw [beq_iff_eq] at ha
      rw [Bool.not_eq_true', beq_eq_false_iff_ne]
      intro he
      have hkk : k = k' := by rw [← he]; exact ha
      exact hk (hkk ▸ hk')
    rw [List.map_congr_left hstep]
    have hcov' : ∀ a ∈ L.filter (fun a => !(key a == k)), key a ∈ K := by
      intro a ha
      obtain ⟨haL, hab⟩ := List.mem_filter.mp ha
      rcases List.mem_cons.mp (hcov a haL) with he | hm
      · rw [Bool.not_eq_true', beq_eq_false_iff_ne] at hab
        exact absurd he hab
      · exact hm
    rw [ih (L.filter (fun a => !(key a == k))) hK hcov']
    exact sum_filter_split (fun a => key a == k) val L

lemma filter_and_split {α : Type} (p q : α → Bool) (l : List α) :
    l.filter (fun a => p a && q a) = List.filter q (List.filter p l) := by
  have he : (fun a => q a && p a) = (fun a => p a && q a) :=
    funext (fun a => Bool.and_comm (q a) (p a))
  rw [List.filter_filter, he]

lemma perSexSum_eq_nested (rows : List Obs) (c s : String) :
    perSexSum rows c s
      = sumIive ((rows.filter (fun r => r.maakond == c)).filter
          (fun r => r.sugu == s)) := by
  unfold perSexSum
  rw [filter_and_split (fun r => r.maakond == c) (fun r => r.sugu == s) rows]

/-- C7: in the displayed pivot table every county's `'Kokku'` total equals
the sum of that county's per-sex-category values (no double counting), and
the table is sorted descending by that total. -/
theorem pivot_kokku_eq_sex_sum_and_sorted (rows : List Obs) :
    (∀ p ∈ pivotSorted rows, p.kokku = p.perSex.sum) ∧
    List.Sorted kokkuGE (pivotSorted rows) := by
  constructor
  · intro p hp
    have hp' : p ∈ pivotTable rows :=
      (List.perm_insertionSort kokkuGE (pivotTable rows)).subset hp
    obtain ⟨c, hc, hpc⟩ := List.mem_map.mp hp'
    rw [← hpc]
    show countyTotal rows c = ((sexKeys rows).map (fun s => perSexSum rows c s)).sum
    have hrw : (sexKeys rows).map (fun s => perSexSum rows c s)
        = (sexKeys rows).map (fun s =>
            (((rows.filter (fun r => r.maakond == c)).filter
              (fun r => r.sugu == s)).map (fun r => r.iive)).sum) :=
      List.map_congr_left (fun s _ => perSexSum_eq_nested rows c s)
    rw [hrw]
    have hnd : (sexKeys rows).Nodup := List.nodup_dedup _
    have hcov : ∀ a ∈ rows.filter (fun r => r.maakond == c),
        a.sugu ∈ sexKeys rows := by
      intro a ha
      exact List.mem_dedup.mpr
        (List.mem_map_of_mem (fun r => r.sugu) (List.mem_of_mem_filter ha))
    have hpart := sum_map_filter_partition (fun r => r.sugu) (fun r => r.iive)
      (sexKeys rows) (rows.filter (fun r => r.maakond == c)) hnd hcov
    unfold countyTotal sumIive
    exact hpart.symm
  · exact List.sorted_insertionSort kokkuGE (pivotTable rows)

/- ### C9: `import_data` always returns the required columns -/

lemma createSampleData_header_mem (v : Int → String → String → Int) :
    "Aasta" ∈ (createSampleData v).header ∧
    "Maakond" ∈ (createSampleData v).header ∧
    "Loomulik iive" ∈ (createSampleData v).header := by
  refine ⟨?_, ?_, ?_⟩ <;> simp [createSampleData]

lemma processParsed_header_mem (p : List (List (List Char)))
    (v : Int → String → String → Int) :
    "Aasta" ∈ (processParsed p v).header ∧
    "Maakond" ∈ (processParsed p v).header ∧
    "Loomulik iive" ∈ (processParsed p v).header := by
  match p with
  | [] => exact createSampleData_header_mem v
  | h :: rs =>
    simp only [processParsed]
    split
    · next hreq => exact hreq
    · next => exact createSampleData_header_mem v

/-- C9: whatever the response — a raised exception, a non-200 status, an
unparseable body, or a parsed table with or without recognizable columns —
`import_data` returns a table whose header contains the `'Aasta'`,
`'Maakond'` and `'Loomulik iive'` columns that the year selector and the
aggregation read. -/
theorem import_data_header_invariant (resp : Option (Nat × List Char))
    (v : Int → String → String → Int) :
    "Aasta" ∈ (importData resp v).header ∧
    "Maakond" ∈ (importData resp v).header ∧
    "Loomulik iive" ∈ (importData resp v).header := by
  match resp with
  | none => exact createSampleData_header_mem v
  | some (status, body) =>
    by_cases h200 : status = 200
    · subst h200
      simp only [importData, if_pos rfl]
      cases hp : parseCsvStep body with
      | none => exact createSampleData_header_mem v
      | some p => exact processParsed_header_mem p v
    · simp only [importData, if_neg h200]
      exact createSampleData_header_mem v

/- ### C5: delimiter handling of the CSV parsing step -/

lemma splitOnChar_of_not_mem (sep : Char) :
    ∀ l : List Char, sep ∉ l → splitOnChar sep l = [l] := by
  intro l
  induction l with
  | nil => intro _; rfl
  | cons c rest ih =>
    intro h
    have hc : ¬ c = sep := fun e => h (e ▸ List.mem_cons_self c rest)
    have hr : sep ∉ rest := fun hm => h (List.mem_cons_of_mem c hm)
    rw [splitOnChar, if_neg hc, ih hr]

lemma splitOnChar_append_cons (sep : Char) :
    ∀ x rest : List Char, sep ∉ x →
      splitOnChar sep (x ++ sep :: rest) = x :: splitOnChar sep rest := by
  intro x
  induction x with
  | nil =>
    intro rest _
    rw [List.nil_append, splitOnChar, if_pos rfl]
  | cons a x ih =>
    intro rest hx
    have ha : ¬ a = sep := fun e => hx (e ▸ List.mem_cons_self a x)
    have hx' : sep ∉ x := fun hm => hx (List.mem_cons_of_mem a hm)
    rw [List.cons_append, splitOnChar, if_neg ha, ih rest hx']

lemma splitOnChar_joinSep (sep : Char) :
    ∀ ls : List (List Char), ls ≠ [] → (∀ l ∈ ls, sep ∉ l) →
      splitOnChar sep (joinSep sep ls) = ls := by
  intro ls
  induction ls with
  | nil => intro h _; exact absurd rfl h
  | cons x t ih =>
    intro _ hmem
    cases t with
    | nil =>
      show splitOnChar sep (joinSep sep [x]) = [x]
      rw [joinSep, splitOnChar_of_not_mem sep x (hmem x (List.mem_cons_self x []))]
    | cons y t' =>
      have hx : sep ∉ x := hmem x (List.mem_cons_self x (y :: t'))
      have ht : splitOnChar sep (joinSep sep (y :: t')) = y :: t' :=
        ih (by intro h; cases h) (fun l hl => hmem l (List.mem_cons_of_mem x hl))
      rw [joinSep, splitOnChar_append_cons sep x (joinSep sep (y :: t')) hx, ht]

lemma mem_joinSep (c sep : Char) :
    ∀ ls : List (List Char), c ∈ joinSep sep ls → c = sep ∨ ∃ l ∈ ls, c ∈ l := by
  intro ls
  induction ls with
  | nil => intro h; rw [joinSep] at h; cases h
  | cons x t ih =>
    cases t with
    | nil =>
      intro h
      rw [joinSep] at h
      right
      exact ⟨x, List.mem_cons_self x [], h⟩
    | cons y t' =>
      intro h
      rw [joinSep] at h
      rcases List.mem_append.mp h with hx | hc
      · right; exact ⟨x, List.mem_cons_self x (y :: t'), hx⟩
      · rcases List.mem_cons.mp hc with he | htl
        · left; exact he
        · rcases ih htl with h1 | ⟨l, hl, hcl⟩
          · left; exact h1
          · right; exact ⟨l, List.mem_cons_of_mem x hl, hcl⟩

lemma joinSep_ne_nil (sep : Char) (ls : List (List Char))
    (h1 : ls ≠ []) (h2 : ∀ l ∈ ls, l ≠ []) : joinSep sep ls ≠ [] := by
  cases ls with
  | nil => exact absurd rfl h1
  | cons x t =>
    cases t with
    | nil =>
      rw [joinSep]
      exact h2 x (List.mem_cons_self x [])
    | cons y t' =>
      rw [joinSep]
      cases x with
      | nil => rw [List.nil_append]; intro h; cases h
      | cons a x' => rw [List.cons_append]; intro h; cases h

lemma readCsv_encode_semicolon (header : List (List Char))
    (rows : List (List (List Char)))
    (hhead : header ≠ [])
    (hfields : ∀ r ∈ header :: rows, ∀ f ∈ r, ';' ∉ f ∧ '\n' ∉ f ∧ f ≠ [])
    (hrows : ∀ r ∈ rows, r ≠ [])
    (hlen : ∀ r ∈ rows, r.length ≤ header.length) :
    readCsv ';' (encodeCsv ';' (header :: rows)) = some (header :: rows) := by
  have hjne : ∀ r ∈ header :: rows, joinSep ';' r ≠ [] := by
    intro r hr
    apply joinSep_ne_nil ';' r
    · rcases List.mem_cons.mp hr with he | hm
      · rw [he]; exact hhead
      · exact hrows r hm
    · intro f hf; exact (hfields r hr f hf).2.2
  have hsplit : (splitOnChar '\n' (encodeCsv ';' (header :: rows))).filter
      (fun l => !l.isEmpty) = joinSep ';' header :: rows.map (joinSep ';') := by
    have h1 : splitOnChar '\n' (joinSep '\n' ((header :: rows).map (joinSep ';')))
        = (header :: rows).map (joinSep ';') := by
      apply splitOnChar_joinSep '\n'
      · intro h; cases h
      · intro l hl
        obtain ⟨r, hr, hrl⟩ := List.mem_map.mp hl
        rw [← hrl]
        intro hmem
        rcases mem_joinSep '\n' ';' r hmem with he | ⟨f, hf, hcf⟩
        · exact absurd he (by decide)
        · exact (hfields r hr f hf).2.1 hcf
    show (splitOnChar '\n' (joinSep '\n' ((header :: rows).map (joinSep ';')))).filter
        (fun l => !l.isEmpty) = _
    rw [h1, List.filter_eq_self.mpr ?hall, List.map_cons]
    case hall =>
      intro a ha
      obtain ⟨r, hr, hra⟩ := List.mem_map.mp ha
      have hane : a ≠ [] := by rw [← hra]; exact hjne r hr
      cases a with
      | nil => exact absurd rfl hane
      | cons c cs => rfl
  have hhd : splitOnChar ';' (joinSep ';' header) = header :=
    splitOnChar_joinSep ';' header hhead
      (fun f hf => (hfields header (List.mem_cons_self header rows) f hf).1)
  have hrows' : (rows.map (joinSep ';')).map (splitOnChar ';') = rows := by
    rw [List.map_map]
    have hpt : ∀ r ∈ rows, splitOnChar ';' (joinSep ';' r) = r := by
      intro r hr
      exact splitOnChar_joinSep ';' r (hrows r hr)
        (fun f hf => (hfields r (List.mem_cons_of_mem header hr) f hf).1)
    calc rows.map (splitOnChar ';' ∘ joinSep ';')
        = rows.map id := List.map_congr_left (fun r hr => hpt r hr)
      _ = rows := List.map_id rows
  unfold readCsv
  rw [hsplit]
  show (if ∀ r ∈ (rows.map (joinSep ';')).map (splitOnChar ';'),
      r.length ≤ (splitOnChar ';' (joinSep ';' header)).length then
    some (splitOnChar ';' (joinSep ';' header) :: (rows.map (joinSep ';')).map (splitOnChar ';'))
  else none) = some (header :: rows)
  rw [hhd, hrows', if_pos hlen]

/-- C5 (counterexample): the parsing step of `import_data` does not recover
the same structured rows from the comma and the semicolon encodings of the
same table: the semicolon attempt succeeds on a comma-delimited payload as
well (pandas raises no error there), returning one whole-line field per
row instead of the original fields. -/
theorem comma_semicolon_parse_differs :
    parseCsvStep (encodeCsv ';' CSV_TABLE0) = some CSV_TABLE0 ∧
    parseCsvStep (encodeCsv ',' CSV_TABLE0) ≠ some CSV_TABLE0 ∧
    parseCsvStep (encodeCsv ',' CSV_TABLE0) ≠ parseCsvStep (encodeCsv ';' CSV_TABLE0) := by
  decide

/-- C5 (amended): for every table whose fields are free of delimiters and
newlines, the parsing step recovers the original rows from the
semicolon-delimited encoding; the comma-delimited encoding is instead
accepted by the (first-tried) semicolon attempt as a table of one
whole-line field per row, so the two encodings do not parse alike. -/
theorem semicolon_recovers_comma_collapses (header : List (List Char))
    (rows : List (List (List Char)))
    (hhead : header ≠ [])
    (hfields : ∀ r ∈ header :: rows, ∀ f ∈ r,
      ';' ∉ f ∧ ',' ∉ f ∧ '\n' ∉ f ∧ f ≠ [])
    (hrect : ∀ r ∈ rows, r.length = header.length) :
    parseCsvStep (encodeCsv ';' (header :: rows)) = some (header :: rows) ∧
    parseCsvStep (encodeCsv ',' (header :: rows)) =
      some ((header :: rows).map (fun r => [joinSep ',' r])) := by
  have hrows : ∀ r ∈ rows, r ≠ [] := by
    intro r hr he
    have hlen0 := hrect r hr
    rw [he] at hlen0
    exact hhead (List.length_eq_zero.mp hlen0.symm)
  constructor
  · have h1 := readCsv_encode_semicolon header rows hhead
      (fun r hr f hf =>
        ⟨(hfields r hr f hf).1, (hfields r hr f hf).2.2.1, (hfields r hr f hf).2.2.2⟩)
      hrows (fun r hr => le_of_eq (hrect r hr))
    unfold parseCsvStep
    rw [h1]
  · have hencode : encodeCsv ',' (header :: rows)
        = encodeCsv ';' ((header :: rows).map (fun r => [joinSep ',' r])) := by
      unfold encodeCsv
      rw [List.map_map]
      rfl
    have hjoin_field : ∀ r ∈ header :: rows,
        ';' ∉ joinSep ',' r ∧ '\n' ∉ joinSep ',' r ∧ joinSep ',' r ≠ [] := by
      intro r hr
      refine ⟨?_, ?_, ?_⟩
      · intro hmem
        rcases mem_joinSep ';' ',' r hmem with he | ⟨f, hf, hcf⟩
        · exact absurd he (by decide)
        · exact (hfields r hr f hf).1 hcf
      · intro hmem
        rcases mem_joinSep '\n' ',' r hmem with he | ⟨f, hf, hcf⟩
        · exact absurd he (by decide)
        · exact (hfields r hr f hf).2.2.1 hcf
      · apply joinSep_ne_nil ',' r
        · rcases List.mem_cons.mp hr with he | hm
          · rw [he]; exact hhead
          · exact hrows r hm
        · intro f hf; exact (hfields r hr f hf).2.2.2
    have h2 := readCsv_encode_semicolon [joinSep ',' header]
      (rows.map (fun r => [joinSep ',' r]))
      (by intro h; cases h)
      (by
        intro r hr f hf
        have hr' : ∃ rr ∈ header :: rows, [joinSep ',' rr] = r := by
          rcases List.mem_cons.mp hr with he | hm
          · exact ⟨header, List.mem_cons_self header rows, he.symm⟩
          · obtain ⟨rr, hrr, hrrr⟩ := List.mem_map.mp hm
            exact ⟨rr, List.mem_cons_of_mem header hrr, hrrr⟩
        obtain ⟨rr, hrr, hrrr⟩ := hr'
        rw [← hrrr] at hf
        rcases List.mem_cons.mp hf with hfe | hfn
        · rw [hfe]
          exact ⟨(hjoin_field rr hrr).1, (hjoin_field rr hrr).2.1, (hjoin_field rr hrr).2.2⟩
        · cases hfn)
      (by
        intro r hr
        obtain ⟨rr, _, hrrr⟩ := List.mem_map.mp hr
        rw [← hrrr]
        intro h; cases h)
      (by
        intro r hr
        obtain ⟨rr, _, hrrr⟩ := List.mem_map.mp hr
        rw [← hrrr, List.length_cons, List.length_nil, List.length_cons, List.length_nil])
    rw [hencode]
    unfold parseCsvStep
    rw [List.map_cons, h2]

/-- C5 (witness): the amended statement applied at the concrete two-column
table. -/
theorem semicolon_recovers_comma_collapses_witness :
    parseCsvStep (encodeCsv ';' CSV_TABLE0) = some CSV_TABLE0 ∧
    parseCsvStep (encodeCsv ',' CSV_TABLE0) =
      some (CSV_TABLE0.map (fun r => [joinSep ',' r])) := by
  have H := semicolon_recovers_comma_collapses
    ["Aasta".toList, "Maakond".toList] [["2023".toList, "39".toList]]
    (by decide) (by decide) (by decide)
  exact H
